import Mathlib

/-!
Verification of the statistical preprocessing routines of `scvi/dataset/_utils.py`:
`_compute_library_size`, `_compute_library_size_batch`, `_check_nonnegative_integers`
and `_get_batch_mask_cell_measurement`.

Modelling conventions (shallow embedding):
* A count matrix is a `List (List ℚ)`, rows = cells.  Numpy floating point is
  modelled by exact rationals; the natural logarithm is an abstract parameter
  `log : ℚ → ℚ` (claims about log values are structural, they hold for every
  interpretation of `log`, and counterexamples instantiate it concretely).
* `np.ma.log` masks its input exactly where the argument is not `> 0`
  (numpy domain `_DomainGreater(0.0)`); a masked value is `Option.none`.
* `np.mean` is sum / length and `np.var` the mean of squared deviations
  (numpy default `ddof = 0`).
* `logger.warning` is modelled by a boolean `warned` field in the result.
* An `AnnData` object is its primary matrix `X`, its named `layers` and its
  `obs` dataframe (an association list of named per-row rational columns).
* `np.unique` returns the distinct values in ascending order, modelled by
  `uniqueSorted` (insertion sort of the deduplicated list).
-/

/-- `np.mean` of a 1-d array: sum divided by length (`0` on the empty list,
standing in for numpy's NaN, which never arises in the claims proved here). -/
def npMean (l : List ℚ) : ℚ := l.sum / l.length

/-- `np.var` of a 1-d array with the default `ddof = 0`: mean of squared
deviations from the mean. -/
def npVar (l : List ℚ) : ℚ := ((l.map (fun x => (x - npMean l) ^ 2)).sum) / l.length

/-- One entry of `np.ma.log`: `some (log t)` when `t > 0`, masked (`none`)
otherwise, matching numpy's masked-log domain `x <= 0`. -/
def maskedLog (log : ℚ → ℚ) (t : ℚ) : Option ℚ :=
  if 0 < t then some (log t) else none

/-- `sum_counts = data.sum(axis=1)`: the per-row totals. -/
def sumCounts (data : List (List ℚ)) : List ℚ := data.map List.sum

/-- `masked_log_sum = np.ma.log(sum_counts)`. -/
def maskedLogSums (log : ℚ → ℚ) (data : List (List ℚ)) : List (Option ℚ) :=
  (sumCounts data).map (maskedLog log)

/-- `log_counts = masked_log_sum.filled(0)`: masked entries replaced by `0`. -/
def filledLogCounts (log : ℚ → ℚ) (data : List (List ℚ)) : List ℚ :=
  (maskedLogSums log data).map (fun o => o.getD 0)

/-- Result of `_compute_library_size`: the two returned scalars (each is a
`1×1` array in the source, broadcast on assignment) together with whether the
empty-cell warning was emitted (`np.ma.is_masked`). -/
structure LibSizeResult where
  mean : ℚ
  var : ℚ
  warned : Bool
  deriving Repr, DecidableEq

/-- `_compute_library_size(data)`: per-row totals, masked log, warning if any
row is masked, fill masked entries with `0`, then take `np.mean` and `np.var`
of the filled array. -/
def _compute_library_size (log : ℚ → ℚ) (data : List (List ℚ)) : LibSizeResult :=
  let mlogs := maskedLogSums log data
  let log_counts := mlogs.map (fun o => o.getD 0)
  { mean := npMean log_counts
    var := npVar log_counts
    warned := mlogs.any Option.isNone }

example : _compute_library_size (fun q => q) [[3], [0]] =
    { mean := 3 / 2, var := 9 / 4, warned := true } := by
  norm_num [_compute_library_size, maskedLogSums, maskedLog, sumCounts, npMean, npVar,
    LibSizeResult.mk.injEq]

example : _compute_library_size (fun q => q) [[2, 3]] =
    { mean := 5, var := 0, warned := false } := by
  norm_num [_compute_library_size, maskedLogSums, maskedLog, sumCounts, npMean, npVar,
    LibSizeResult.mk.injEq]

/-! ## The `AnnData` model and `_compute_library_size_batch` -/

/-- An `anndata.AnnData` object, restricted to the parts the code touches:
the primary matrix `X`, the named alternate `layers` and the `obs` dataframe
(named per-row rational columns; batch labels are rationals, matching a
numeric/categorical-codes batch column). -/
structure AnnData where
  X : List (List ℚ)
  layers : List (String × List (List ℚ))
  obs : List (String × List ℚ)
  deriving Repr, DecidableEq

/-- Lookup in an association list (`adata.obs[key]`, `adata.layers[key]`,
`key in adata.obs_keys()`, `key in adata.layers.keys()`). -/
def alookup (l : List (String × α)) (k : String) : Option α :=
  (l.find? (fun p => p.1 == k)).map (·.2)

/-- Dataframe column assignment `df[k] = v`: overwrite the column in place
when the key exists, append a new column otherwise. -/
def ainsert (l : List (String × α)) (k : String) (v : α) : List (String × α) :=
  if l.any (fun p => p.1 == k) then
    l.map (fun p => if p.1 == k then (k, v) else p)
  else l ++ [(k, v)]

/-- `idx_batch = np.squeeze(batch_indices == i_batch)`: the boolean row mask
selecting the rows whose batch label is `lab`. -/
def maskOf (bcol : List ℚ) (lab : ℚ) : List Bool :=
  bcol.map (fun x => decide (x = lab))

/-- Boolean-mask row selection `a[idx_batch]`. -/
def filterMask : List Bool → List α → List α
  | true :: ms, x :: xs => x :: filterMask ms xs
  | false :: ms, _ :: xs => filterMask ms xs
  | _, _ => []

/-- Boolean-mask assignment `arr[idx_batch] = v` (the right-hand side is the
`1×1` result of `_compute_library_size`, broadcast to every selected row). -/
def maskedSet (v : ℚ) : List Bool → List ℚ → List ℚ
  | true :: ms, _ :: xs => v :: maskedSet v ms xs
  | false :: ms, x :: xs => x :: maskedSet v ms xs
  | _, xs => xs

/-- `np.unique`: the distinct values in ascending order. -/
def uniqueSorted (l : List ℚ) : List ℚ :=
  List.insertionSort (· ≤ ·) l.dedup

/-- The configuration failures of `_compute_library_size_batch` (the two
`assert` statements). -/
inductive ConfigError where
  | batchKeyMissing
  | layerKeyMissing
  deriving Repr, DecidableEq

/-- Outcome of `_compute_library_size_batch`: on success, `state` is the
caller's `adata` after the call and `ret` the returned object (`none` when the
function returns `None`); on error, `state` is the caller's `adata` at the
moment the assertion fired. -/
inductive BatchOut where
  | err (e : ConfigError) (state : AnnData)
  | ok (state : AnnData) (ret : Option AnnData)
  deriving Repr, DecidableEq

def BatchOut.isErr : BatchOut → Bool
  | .err _ _ => true
  | .ok _ _ => false

def BatchOut.stateOf : BatchOut → AnnData
  | .err _ s => s
  | .ok s _ => s

/-- One data-selection step of the batch loop: check `X_layers_key` when
given (`assert X_layers_key in adata.layers.keys()`), then take the batch's
rows from `adata[idx_batch].layers[X_layers_key]` or `adata[idx_batch].X`. -/
def selectData (adata : AnnData) :
    Option String → List Bool → Except ConfigError (List (List ℚ))
  | some k, mask =>
    match alookup adata.layers k with
    | some layer => .ok (filterMask mask layer)
    | none => .error .layerKeyMissing
  | none, mask => .ok (filterMask mask adata.X)

/-- The `for i_batch in np.unique(batch_indices)` loop: for each label,
select the label's rows (checking the layer key), run
`_compute_library_size` on them, and broadcast the two scalars into the
label's positions of `local_means` / `local_vars`. -/
def batchLoop (log : ℚ → ℚ) (adata : AnnData) (bcol : List ℚ)
    (X_layers_key : Option String) :
    List ℚ → List ℚ × List ℚ → Except ConfigError (List ℚ × List ℚ)
  | [], acc => .ok acc
  | lab :: rest, (means, vars) =>
    match selectData adata X_layers_key (maskOf bcol lab) with
    | .error e => .error e
    | .ok data =>
      batchLoop log adata bcol X_layers_key rest
        (maskedSet (_compute_library_size log data).mean (maskOf bcol lab) means,
         maskedSet (_compute_library_size log data).var (maskOf bcol lab) vars)

/-- The tail of `_compute_library_size_batch` after the loop: write the two
columns either into `adata.copy()` and return it, or into `adata` in place
and return `None`. -/
def mkFinal (adata : AnnData) (mkey vkey : String) (means vars : List ℚ)
    (copy : Bool) : BatchOut :=
  if copy then
    .ok adata (some { adata with obs := ainsert (ainsert adata.obs mkey means) vkey vars })
  else
    .ok { adata with obs := ainsert (ainsert adata.obs mkey means) vkey vars } none

/-- `_compute_library_size_batch(adata, batch_key, local_l_mean_key,
local_l_var_key, X_layers_key, copy)`: assert the batch key, run the batch
loop on `local_means = local_vars = np.zeros(adata.shape[0])`, default the
output column names, then either write both columns into a copy and return it
(`copy=True`) or write them into `adata` in place and return `None`. -/
def _compute_library_size_batch (log : ℚ → ℚ) (adata : AnnData)
    (batch_key : String) (local_l_mean_key local_l_var_key : Option String)
    (X_layers_key : Option String) (copy : Bool) : BatchOut :=
  match alookup adata.obs batch_key with
  | none => .err .batchKeyMissing adata
  | some bcol =>
    match batchLoop log adata bcol X_layers_key (uniqueSorted bcol)
        (List.replicate adata.X.length 0, List.replicate adata.X.length 0) with
    | .error e => .err e adata
    | .ok (means, vars) =>
      mkFinal adata (local_l_mean_key.getD "_scvi_local_l_mean")
        (local_l_var_key.getD "_scvi_local_l_var") means vars copy

example :
    _compute_library_size_batch (fun q => q) ⟨[[2], [4]], [], [("b", [0, 1])]⟩
      "b" none none none false =
    .ok ⟨[[2], [4]], [],
      [("b", [0, 1]), ("_scvi_local_l_mean", [2, 4]), ("_scvi_local_l_var", [0, 0])]⟩
      none := by
  norm_num [_compute_library_size_batch, uniqueSorted, List.insertionSort, List.orderedInsert,
    batchLoop, selectData, mkFinal, maskOf, filterMask, maskedSet, alookup, ainsert,
    List.find?, _compute_library_size, maskedLogSums, maskedLog, sumCounts, npMean, npVar]
  decide

/-! ## `_check_nonnegative_integers` -/

/-- The argument of `_check_nonnegative_integers`: a dense `np.ndarray`, or a
sparse `scipy.sparse.csr_matrix` given by its shape and its list of stored
`(row, column, value)` entries (`X.data` is the list of stored values). -/
inductive SciMat where
  | dense (rows : List (List ℚ))
  | sparse (nrows ncols : ℕ) (entries : List (ℕ × ℕ × ℚ))
  deriving Repr, DecidableEq

/-- `data = X if type(X) is np.ndarray else X.data`: every entry of a dense
array, the stored values of a sparse one. -/
def SciMat.scannedData : SciMat → List ℚ
  | .dense rows => rows.flatten
  | .sparse _ _ entries => entries.map (fun t => t.2.2)

/-- `np.mod(x, 1)`: the fractional part `x - ⌊x⌋` (numpy's `mod` with a
positive modulus agrees with the floor-based fractional part, also on
negative inputs). -/
def qfract (x : ℚ) : ℚ := x - ⌊x⌋

/-- `_check_nonnegative_integers(X)`: `False` when any scanned value is
negative, `False` when any scanned value has `np.mod(value, 1) != 0`,
`True` otherwise. -/
def _check_nonnegative_integers (X : SciMat) : Bool :=
  if X.scannedData.any (fun x => decide (x < 0)) then false
  else if X.scannedData.any (fun x => !(decide (qfract x = 0))) then false
  else true

/-- The mathematical entry of a `SciMat` at row `i`, column `j` (a sparse
matrix holds `0` at unstored positions). -/
def SciMat.entry : SciMat → ℕ → ℕ → ℚ
  | .dense rows, i, j => ((rows.getD i []).getD j 0)
  | .sparse _ _ entries, i, j =>
    ((entries.find? (fun t => t.1 == i && t.2.1 == j)).map (fun t => t.2.2)).getD 0

def SciMat.nRows : SciMat → ℕ
  | .dense rows => rows.length
  | .sparse n _ _ => n

def SciMat.nCols : SciMat → ℕ
  | .dense rows => (rows.headD []).length
  | .sparse _ m _ => m

/-- Well-formedness: a dense matrix is rectangular; a sparse matrix stores
in-bounds coordinates with no duplicate coordinate pair. -/
def SciMat.WF : SciMat → Prop
  | .dense rows => ∀ r ∈ rows, r.length = (rows.headD []).length
  | .sparse n m entries =>
    (∀ t ∈ entries, t.1 < n ∧ t.2.1 < m) ∧
      (entries.map (fun t => (t.1, t.2.1))).Nodup

instance : DecidablePred SciMat.WF := fun X => by
  cases X <;> · unfold SciMat.WF; infer_instance

/-- "Every entry is non-negative and integral", over the mathematical entries
of the matrix. -/
def EntriesNonnegInt (X : SciMat) : Prop :=
  ∀ i < X.nRows, ∀ j < X.nCols, 0 ≤ X.entry i j ∧ qfract (X.entry i j) = 0

instance : DecidablePred EntriesNonnegInt := fun X => by
  unfold EntriesNonnegInt; infer_instance

/-! ## `_get_batch_mask_cell_measurement` -/

/-- The parts of the dataset object that `_get_batch_mask_cell_measurement`
reads: `self.batch_indices` (one label per row) and the cell-measurement
table named by `attribute_name`, with its column count. -/
structure MeasurementData where
  batch_indices : List ℚ
  measurement : List (List ℚ)
  ncols : ℕ
  deriving Repr, DecidableEq

/-- Column `j` sum of a list of rows (`.sum(axis=0)` at column `j`). -/
def colSum (rows : List (List ℚ)) (j : ℕ) : ℚ :=
  (rows.map (fun r => r.getD j 0)).sum

/-- The mask computed for one batch label: select the label's rows, sum each
column, and mark the columns whose sum is non-zero (`~(batch_sum == 0)`). -/
def batchMaskFor (self : MeasurementData) (b : ℚ) : List Bool :=
  let rows := filterMask (maskOf self.batch_indices b) self.measurement
  (List.range self.ncols).map (fun j => !(decide (colSum rows j = 0)))

/-- `_get_batch_mask_cell_measurement(self, attribute_name)`: one mask per
element of `np.unique(self.batch_indices)`, in that (ascending) order. -/
def _get_batch_mask_cell_measurement (self : MeasurementData) : List (List Bool) :=
  (uniqueSorted self.batch_indices).map (batchMaskFor self)

example :
    _get_batch_mask_cell_measurement ⟨[0, 0, 1, 1], [[1, 0], [0, 0], [0, 0], [0, 3]], 2⟩ =
      [[true, false], [false, true]] := by
  norm_num [_get_batch_mask_cell_measurement, uniqueSorted, List.insertionSort,
    List.orderedInsert, batchMaskFor, maskOf, filterMask, colSum, List.range,
    List.range.loop, List.dedup]

/-! ## Spec-side definitions

These two definitions follow the specification's words, not the source; they
exist only to be compared with the source-derived definitions above. -/

/-- Follows the spec's words for §4.1/§7: the aggregate mean and variance are
taken only over the log totals of rows with positive totals (zero-total rows
excluded from the reductions, their `0` fill applied post-aggregation). -/
def specLibraryAggregates (log : ℚ → ℚ) (data : List (List ℚ)) : ℚ × ℚ :=
  let posLogs := (sumCounts data).filterMap (maskedLog log)
  (npMean posLogs, npVar posLogs)

/-- Follows the spec's words for §4.4: the distinct batch labels in the order
in which each is first encountered in the batch assignment. -/
def firstEncounterLabels (l : List ℚ) : List ℚ :=
  l.foldl (fun acc x => if x ∈ acc then acc else acc ++ [x]) []

/-- Follows the spec's words for §4.4: one mask per distinct batch label, in
first-encounter order. -/
def specBatchMasks (self : MeasurementData) : List (List Bool) :=
  (firstEncounterLabels self.batch_indices).map (batchMaskFor self)

/-- The `X_layers_key` precondition fails: a key is given and absent from
`adata.layers.keys()`. -/
def badLayerKey (adata : AnnData) : Option String → Bool
  | some k => (alookup adata.layers k).isNone
  | none => false

/-- The observable effect, on a dataset's content, of writing the two output
columns: primary matrix and layers untouched, both output columns present,
and every other `obs` column unchanged. -/
def WritesCols (old new : AnnData) (mkey vkey : String) : Prop :=
  new.X = old.X ∧ new.layers = old.layers ∧
    (alookup new.obs mkey).isSome = true ∧ (alookup new.obs vkey).isSome = true ∧
    ∀ key : String, key ≠ mkey → key ≠ vkey →
      alookup new.obs key = alookup old.obs key

/-! ## Claim theorems -/

/-- **C10.** In `_compute_library_size`, every row whose total count `t` is
strictly positive gets the log value `log t` exactly (the floating-point
rounding of the source is modelled away by exact rationals and an abstract
`log`, so "within floating-point tolerance" becomes equality). -/
theorem C10_positive_total_gets_log (log : ℚ → ℚ) (data : List (List ℚ))
    (i : ℕ) (t : ℚ) (ht : (sumCounts data)[i]? = some t) (hpos : 0 < t) :
    (maskedLogSums log data)[i]? = some (some (log t)) := by
  unfold maskedLogSums
  rw [List.getElem?_map, ht]
  simp [maskedLog, hpos]

/-- Witness for C10 at the concrete matrix `[[2, 3]]` with `log = (· + 1)`:
row 0 has total `5 > 0` and its masked-log entry is `some (5 + 1)`. -/
theorem C10_witness :
    (maskedLogSums (fun q => q + 1) [[2, 3]])[0]? = some (some (5 + 1)) :=
  C10_positive_total_gets_log (fun q => q + 1) [[2, 3]] 0 5
    (by norm_num [sumCounts]) (by norm_num)

/-- **C4.** A row with total count `0` makes
`_compute_library_size` emit the empty-cells warning, and the value stored in
that row's slot of the filled log array `log_counts` is exactly `0` — finite.
(No exception can be raised: the modelled function is total, as is the
masked-log/fill path of the source.) -/
theorem C4_zero_total_row_warns (log : ℚ → ℚ) (data : List (List ℚ)) (i : ℕ)
    (h : (sumCounts data)[i]? = some 0) :
    (_compute_library_size log data).warned = true ∧
      (filledLogCounts log data)[i]? = some 0 := by
  have hm : (maskedLogSums log data)[i]? = some none := by
    unfold maskedLogSums
    rw [List.getElem?_map, h]
    simp [maskedLog]
  refine ⟨?_, ?_⟩
  · unfold _compute_library_size
    simp only [List.any_eq_true]
    exact ⟨none, List.getElem?_mem hm, rfl⟩
  · unfold filledLogCounts
    rw [List.getElem?_map, hm]
    rfl

/-- Witness for C4 at `[[3], [0]]` with `log = id`: row 1 has total `0`. -/
theorem C4_witness :
    (_compute_library_size (fun q => q) [[3], [0]]).warned = true ∧
      (filledLogCounts (fun q => q) [[3], [0]])[1]? = some 0 :=
  C4_zero_total_row_warns (fun q => q) [[3], [0]] 1 (by norm_num [sumCounts])

/-- `_check_nonnegative_integers` is `true` exactly when every scanned value
is non-negative with zero fractional part. -/
theorem check_true_iff_scanned (X : SciMat) :
    _check_nonnegative_integers X = true ↔
      ∀ x ∈ X.scannedData, 0 ≤ x ∧ qfract x = 0 := by
  unfold _check_nonnegative_integers
  split_ifs with h1 h2
  · simp only [List.any_eq_true, decide_eq_true_eq] at h1
    obtain ⟨x, hx, hxlt⟩ := h1
    exact iff_of_false (by simp) fun hall => absurd (hall x hx).1 (not_le.mpr hxlt)
  · simp only [List.any_eq_true, Bool.not_eq_true', decide_eq_false_iff_not] at h2
    obtain ⟨x, hx, hxf⟩ := h2
    exact iff_of_false (by simp) fun hall => hxf (hall x hx).2
  · simp only [List.any_eq_true, decide_eq_true_eq, not_exists, not_and] at h1
    simp only [List.any_eq_true, Bool.not_eq_true', decide_eq_false_iff_not,
      not_exists, not_and, not_not] at h2
    exact iff_of_true rfl fun x hx => ⟨not_lt.mp (h1 x hx), h2 x hx⟩

/-- In a coordinate list without duplicate coordinates, `find?` at the
coordinates of a member returns exactly that member. -/
theorem find?_of_nodup_coords (entries : List (ℕ × ℕ × ℚ))
    (hnd : (entries.map (fun t => (t.1, t.2.1))).Nodup) (t : ℕ × ℕ × ℚ)
    (ht : t ∈ entries) :
    entries.find? (fun s => s.1 == t.1 && s.2.1 == t.2.1) = some t := by
  induction entries with
  | nil => cases ht
  | cons e rest ih =>
    rw [List.map_cons, List.nodup_cons] at hnd
    by_cases hpe : (e.1 == t.1 && e.2.1 == t.2.1) = true
    · rw [List.find?_cons_of_pos (p := fun s => s.1 == t.1 && s.2.1 == t.2.1) rest hpe]
      rcases List.mem_cons.mp ht with h | h
      · rw [h]
      · exfalso
        simp only [Bool.and_eq_true, beq_iff_eq] at hpe
        exact hnd.1 (List.mem_map.mpr ⟨t, h, by rw [← hpe.1, ← hpe.2]⟩)
    · rw [List.find?_cons_of_neg (p := fun s => s.1 == t.1 && s.2.1 == t.2.1) rest hpe]
      rcases List.mem_cons.mp ht with h | h
      · exact absurd (by rw [h]; simp) hpe
      · exact ih hnd.2 h

/-- For a well-formed matrix, the scanned values capture exactly the
non-negativity/integrality of all mathematical entries. -/
theorem scanned_ok_iff_entries_ok (X : SciMat) (hwf : X.WF) :
    (∀ x ∈ X.scannedData, 0 ≤ x ∧ qfract x = 0) ↔ EntriesNonnegInt X := by
  cases X with
  | dense rows =>
    simp only [SciMat.WF] at hwf
    simp only [EntriesNonnegInt, SciMat.nRows, SciMat.nCols, SciMat.entry,
      SciMat.scannedData]
    constructor
    · intro hall i hi j hj
      have hrl : rows[i].length = (rows.headD []).length := hwf _ (List.getElem_mem hi)
      have hj' : j < rows[i].length := hrl ▸ hj
      rw [List.getD_eq_getElem rows [] hi, List.getD_eq_getElem _ 0 hj']
      exact hall _ (List.mem_flatten.mpr ⟨rows[i], List.getElem_mem hi, List.getElem_mem hj'⟩)
    · intro hent x hx
      obtain ⟨r, hr, hxr⟩ := List.mem_flatten.mp hx
      obtain ⟨i, hi, hri⟩ := List.getElem_of_mem hr
      obtain ⟨j, hj, hxj⟩ := List.getElem_of_mem hxr
      have hrl : r.length = (rows.headD []).length := hwf r hr
      have h2 := hent i hi j (hrl ▸ hj)
      rwa [List.getD_eq_getElem rows [] hi, hri,
        List.getD_eq_getElem r 0 hj, hxj] at h2
  | sparse n m entries =>
    simp only [SciMat.WF] at hwf
    simp only [EntriesNonnegInt, SciMat.nRows, SciMat.nCols, SciMat.entry,
      SciMat.scannedData]
    constructor
    · intro hall i _ j _
      cases hfind : entries.find? (fun s => s.1 == i && s.2.1 == j) with
      | none => norm_num [qfract]
      | some s =>
        have hs : s ∈ entries := List.mem_of_find?_eq_some hfind
        simpa using hall s.2.2 (List.mem_map.mpr ⟨s, hs, rfl⟩)
    · intro hent x hx
      obtain ⟨t, ht, hval⟩ := List.mem_map.mp hx
      have h2 := hent t.1 (hwf.1 t ht).1 t.2.1 (hwf.1 t ht).2
      rw [find?_of_nodup_coords entries hwf.2 t ht] at h2
      simp only [Option.map_some', Option.getD_some, hval] at h2
      exact h2

/-- **C2.** `_check_nonnegative_integers` on any well-formed dense or sparse
matrix returns `true` iff every entry is non-negative with fractional part
exactly zero; and it returns `false` on a matrix containing `-1`, `false` on
one containing `5/2`, `true` on an all-zero integer matrix, and `true` on an
empty matrix. -/
theorem C2_check_nonnegative_integers_correct :
    (∀ X : SciMat, X.WF →
        (_check_nonnegative_integers X = true ↔ EntriesNonnegInt X)) ∧
      _check_nonnegative_integers (.dense [[-1]]) = false ∧
      _check_nonnegative_integers (.dense [[5/2]]) = false ∧
      _check_nonnegative_integers (.dense [[0, 0], [0, 0]]) = true ∧
      _check_nonnegative_integers (.dense []) = true := by
  refine ⟨fun X hwf => (check_true_iff_scanned X).trans (scanned_ok_iff_entries_ok X hwf),
    ?_, ?_, ?_, ?_⟩
  · rw [Bool.eq_false_iff]
    intro h
    have := ((check_true_iff_scanned _).mp h (-1)
      (by norm_num [SciMat.scannedData])).1
    norm_num at this
  · rw [Bool.eq_false_iff]
    intro h
    have := ((check_true_iff_scanned _).mp h (5/2)
      (by norm_num [SciMat.scannedData])).2
    norm_num [qfract] at this
  · refine (check_true_iff_scanned _).mpr fun x hx => ?_
    simp only [SciMat.scannedData] at hx
    norm_num at hx
    rw [hx]
    norm_num [qfract]
  · exact (check_true_iff_scanned _).mpr fun x hx => by
      simp [SciMat.scannedData] at hx

/-- Witness for C2's quantified part at a concrete well-formed sparse matrix
with stored entries `2` and `3`. -/
theorem C2_witness :
    _check_nonnegative_integers (.sparse 2 2 [(0, 0, 2), (1, 1, 3)]) = true := by
  refine (C2_check_nonnegative_integers_correct.1 _ ?_).mpr ?_
  · exact ⟨by decide, by decide⟩
  · simp only [EntriesNonnegInt, SciMat.nRows, SciMat.nCols]
    intro i hi j hj
    interval_cases i <;> interval_cases j
    · rw [show (SciMat.sparse 2 2 [(0, 0, 2), (1, 1, 3)]).entry 0 0 = 2 from rfl]
      norm_num [qfract]
    · rw [show (SciMat.sparse 2 2 [(0, 0, 2), (1, 1, 3)]).entry 0 1 = 0 from rfl]
      norm_num [qfract]
    · rw [show (SciMat.sparse 2 2 [(0, 0, 2), (1, 1, 3)]).entry 1 0 = 0 from rfl]
      norm_num [qfract]
    · rw [show (SciMat.sparse 2 2 [(0, 0, 2), (1, 1, 3)]).entry 1 1 = 3 from rfl]
      norm_num [qfract]

/-- `_compute_library_size` written with the named intermediate arrays. -/
theorem compute_library_size_eq (log : ℚ → ℚ) (data : List (List ℚ)) :
    _compute_library_size log data =
      { mean := npMean (filledLogCounts log data)
        var := npVar (filledLogCounts log data)
        warned := (maskedLogSums log data).any Option.isNone } := rfl

/-- Summing `f` over a filled option list equals summing `f` over the present
values, provided `f 0 = 0`. -/
theorem sum_map_getD_filterMap (f : ℚ → ℚ) (hf : f 0 = 0) (l : List (Option ℚ)) :
    (l.map (fun o => f (o.getD 0))).sum = ((l.filterMap id).map f).sum := by
  induction l with
  | nil => rfl
  | cons o t ih =>
    cases o with
    | none => simpa [hf] using ih
    | some a => simp [ih]

/-- Expansion of a sum of squared deviations. -/
theorem sum_sq_dev (c : ℚ) (l : List ℚ) :
    (l.map (fun x => (x - c) ^ 2)).sum =
      (l.map (fun x => x ^ 2)).sum - 2 * c * l.sum + l.length * c ^ 2 := by
  induction l with
  | nil => simp
  | cons a t ih =>
    simp only [List.map_cons, List.sum_cons, List.length_cons, Nat.cast_succ]
    rw [ih]
    ring

/-- `np.var` as mean of squares minus square of mean. -/
theorem npVar_eq_sq_sub (l : List ℚ) :
    npVar l = (l.map (fun x => x ^ 2)).sum / l.length - npMean l ^ 2 := by
  rcases eq_or_ne l [] with rfl | hne
  · simp [npVar, npMean]
  · have hn : (l.length : ℚ) ≠ 0 :=
      Nat.cast_ne_zero.mpr (fun h => hne (List.length_eq_zero.mp h))
    unfold npVar
    rw [sum_sq_dev]
    unfold npMean
    field_simp
    ring

/-- The present values of the masked log array are the logs of the positive
row totals. -/
theorem filterMap_maskedLogSums (log : ℚ → ℚ) (data : List (List ℚ)) :
    (maskedLogSums log data).filterMap id =
      (sumCounts data).filterMap (maskedLog log) := by
  unfold maskedLogSums
  rw [List.filterMap_map]
  rfl

/-- **C1 counterexample.** At `data = [[3], [0]]` (second row total `0`) and
`log` interpreted as the identity (any `log` with `log 3 ≠ 0` behaves the
same; the real `ln 3 ≈ 1.0986 ≠ 0`), the aggregate mean of
`_compute_library_size` is `3/2` — the zero fill participates in the
reduction — while the mean over rows with positive totals alone would be `3`.
This falsifies the claim that zero-total rows are excluded from the mean and
variance reductions. -/
theorem C1_counterexample :
    (sumCounts [[(3 : ℚ)], [0]])[1]? = some 0 ∧
      (_compute_library_size (fun q => q) [[3], [0]]).mean ≠
        (specLibraryAggregates (fun q => q) [[3], [0]]).1 := by
  constructor
  · norm_num [sumCounts]
  · norm_num [_compute_library_size, specLibraryAggregates, maskedLogSums, maskedLog,
      sumCounts, npMean, npVar, List.filterMap_cons]

/-- **C1 (amended).** In `_compute_library_size`, zero-total rows are *not*
excluded from the aggregate reductions: the masked entries are filled with
`0` *before* `np.mean`/`np.var` run, so the mean equals the sum of the logs
of the positive totals divided by the number of **all** rows, and the
variance equals the corresponding second moment minus the square of that
mean.  (The zero substitution in the row's own slot of the filled array does
happen, see C4.) -/
theorem C1_amended_fill_before_reduction (log : ℚ → ℚ) (data : List (List ℚ)) :
    (_compute_library_size log data).mean =
      ((sumCounts data).filterMap (maskedLog log)).sum / data.length ∧
    (_compute_library_size log data).var =
      (((sumCounts data).filterMap (maskedLog log)).map (fun x => x ^ 2)).sum
          / data.length
        - (((sumCounts data).filterMap (maskedLog log)).sum / data.length) ^ 2 := by
  have hlen : (filledLogCounts log data).length = data.length := by
    simp [filledLogCounts, maskedLogSums, sumCounts]
  have hsum : (filledLogCounts log data).sum =
      ((sumCounts data).filterMap (maskedLog log)).sum := by
    rw [← filterMap_maskedLogSums]
    simpa [filledLogCounts] using
      sum_map_getD_filterMap (fun x => x) rfl (maskedLogSums log data)
  have hsq : ((filledLogCounts log data).map (fun x => x ^ 2)).sum =
      (((sumCounts data).filterMap (maskedLog log)).map (fun x => x ^ 2)).sum := by
    rw [← filterMap_maskedLogSums]
    simpa [filledLogCounts, List.map_map, Function.comp] using
      sum_map_getD_filterMap (fun x => x ^ 2) (by norm_num) (maskedLogSums log data)
  have hmean : (_compute_library_size log data).mean =
      ((sumCounts data).filterMap (maskedLog log)).sum / data.length := by
    rw [compute_library_size_eq]
    show npMean (filledLogCounts log data) = _
    unfold npMean
    rw [hsum, hlen]
  refine ⟨hmean, ?_⟩
  rw [compute_library_size_eq]
  show npVar (filledLogCounts log data) = _
  rw [npVar_eq_sq_sub, hsq, hlen]
  have : npMean (filledLogCounts log data) = (_compute_library_size log data).mean := by
    rw [compute_library_size_eq]
  rw [this, hmean]

/-- Everything selected by a boolean mask was in the original list. -/
theorem mem_of_mem_filterMask (mask : List Bool) (l : List α) (x : α)
    (hx : x ∈ filterMask mask l) : x ∈ l := by
  induction mask generalizing l with
  | nil =>
    rw [show filterMask [] l = [] from rfl] at hx
    cases hx
  | cons m ms ih =>
    cases l with
    | nil =>
      rw [show filterMask (m :: ms) [] = [] by cases m <;> rfl] at hx
      cases hx
    | cons a t =>
      cases m with
      | true =>
        rcases List.mem_cons.mp hx with rfl | h
        · exact List.mem_cons_self _ _
        · exact List.mem_cons_of_mem a (ih t h)
      | false => exact List.mem_cons_of_mem a (ih t hx)

/-- A sum of non-negative rationals vanishes exactly when every term does. -/
theorem sum_eq_zero_iff_of_nonneg (l : List ℚ) (h : ∀ x ∈ l, 0 ≤ x) :
    l.sum = 0 ↔ ∀ x ∈ l, x = 0 := by
  induction l with
  | nil => simp
  | cons a t ih =>
    simp only [List.sum_cons, List.mem_cons, forall_eq_or_imp]
    have ha : 0 ≤ a := h a (List.mem_cons_self a t)
    have ht : ∀ x ∈ t, 0 ≤ x := fun x hx => h x (List.mem_cons_of_mem a hx)
    have hts : 0 ≤ t.sum := List.sum_nonneg ht
    constructor
    · intro hsum
      have h1 : a = 0 := le_antisymm (by linarith) ha
      have h2 : t.sum = 0 := by linarith
      exact ⟨h1, (ih ht).mp h2⟩
    · rintro ⟨rfl, hall⟩
      simp [(ih ht).mpr hall]

/-- **C8 counterexample.** With a single batch `[0, 0]` over the measurement
rows `[[1], [-1]]`, column 0 holds the non-zero values `1` and `-1`, yet the
batch sum is `1 + (-1) = 0`, so `_get_batch_mask_cell_measurement` reports
the column as absent (`[[false]]`).  The claimed "true iff at least one row
non-zero" therefore fails for general (negative-valued) measurement tables:
the code tests the column **sum** against zero. -/
theorem C8_counterexample :
    (∃ r ∈ filterMask (maskOf [0, 0] 0) [[(1 : ℚ)], [-1]], r.getD 0 0 ≠ 0) ∧
      _get_batch_mask_cell_measurement ⟨[0, 0], [[1], [-1]], 1⟩ = [[false]] := by
  constructor
  · exact ⟨[1], by norm_num [filterMask, maskOf], by norm_num⟩
  · have hu : uniqueSorted [(0 : ℚ), 0] = [0] := by
      norm_num [uniqueSorted, List.dedup_cons_of_mem, List.insertionSort]
    norm_num [_get_batch_mask_cell_measurement, hu, batchMaskFor, maskOf, filterMask,
      colSum, List.range, List.range.loop]

/-- **C8 (amended).** `_get_batch_mask_cell_measurement` returns one mask per
element of `np.unique(batch_indices)`, where the mask entry for column `j` is
`true` iff the **sum** of column `j` over the batch's rows is non-zero; for
measurement tables with non-negative entries (the intended count data) this
coincides with the claimed "at least one row of the batch has a non-zero
value in column `j`". -/
theorem C8_amended_mask_iff_nonzero (self : MeasurementData)
    (hnn : ∀ r ∈ self.measurement, ∀ x ∈ r, 0 ≤ x) :
    _get_batch_mask_cell_measurement self =
        (uniqueSorted self.batch_indices).map (batchMaskFor self) ∧
      ∀ b : ℚ, ∀ j < self.ncols,
        ((batchMaskFor self b)[j]? = some true ↔
          ∃ r ∈ filterMask (maskOf self.batch_indices b) self.measurement,
            r.getD j 0 ≠ 0) := by
  refine ⟨rfl, fun b j hj => ?_⟩
  have hget : (batchMaskFor self b)[j]? =
      some (!(decide (colSum
        (filterMask (maskOf self.batch_indices b) self.measurement) j = 0))) := by
    unfold batchMaskFor
    rw [List.getElem?_map, List.getElem?_range hj]
    rfl
  rw [hget]
  simp only [Option.some_inj, Bool.not_eq_true', decide_eq_false_iff_not]
  set rows := filterMask (maskOf self.batch_indices b) self.measurement with hrows
  have hnnrows : ∀ x ∈ rows.map (fun r => r.getD j 0), 0 ≤ x := by
    intro x hx
    obtain ⟨r, hr, hval⟩ := List.mem_map.mp hx
    have hrm : r ∈ self.measurement := mem_of_mem_filterMask _ _ r (hrows ▸ hr)
    rcases lt_or_le j r.length with hlt | hle
    · rw [← hval, List.getD_eq_getElem r 0 hlt]
      exact hnn r hrm _ (List.getElem_mem hlt)
    · rw [← hval, List.getD_eq_default r 0 hle]
  constructor
  · intro hne
    have hnall : ¬ ∀ x ∈ rows.map (fun r => r.getD j 0), x = 0 :=
      fun hall => hne ((sum_eq_zero_iff_of_nonneg _ hnnrows).mpr hall)
    push_neg at hnall
    obtain ⟨x, hx, hxne⟩ := hnall
    obtain ⟨r, hr, hval⟩ := List.mem_map.mp hx
    exact ⟨r, hr, hval ▸ hxne⟩
  · rintro ⟨r, hr, hrne⟩ h0
    exact hrne ((sum_eq_zero_iff_of_nonneg _ hnnrows).mp h0 _
      (List.mem_map.mpr ⟨r, hr, rfl⟩))

/-- Witness for C8 at the spec's own example (batches `0 = "A"`, `1 = "B"`,
rows `[[1,0],[0,0]]` in A and `[[0,0],[0,3]]` in B): batch A's mask has
`true` at column 0. -/
theorem C8_witness :
    (batchMaskFor ⟨[0, 0, 1, 1], [[1, 0], [0, 0], [0, 0], [0, 3]], 2⟩ 0)[0]? =
      some true :=
  ((C8_amended_mask_iff_nonzero ⟨[0, 0, 1, 1], [[1, 0], [0, 0], [0, 0], [0, 3]], 2⟩
      (by decide)).2 0 0 (by norm_num)).mpr ⟨[1, 0], by decide, by decide⟩

/-- **C9 counterexample.** With batch assignment `[1, 0]` (label `1` first
encountered before label `0`) and rows `[[1,0]]` in batch 1, `[[0,3]]` in
batch 0, `np.unique` iterates in ascending label order, so the function
returns `[[false,true],[true,false]]` — not the first-encounter order
`[[true,false],[false,true]]` the claim requires. -/
theorem C9_counterexample :
    _get_batch_mask_cell_measurement ⟨[1, 0], [[1, 0], [0, 3]], 2⟩ =
        [[false, true], [true, false]] ∧
      specBatchMasks ⟨[1, 0], [[1, 0], [0, 3]], 2⟩ =
        [[true, false], [false, true]] ∧
      _get_batch_mask_cell_measurement ⟨[1, 0], [[1, 0], [0, 3]], 2⟩ ≠
        specBatchMasks ⟨[1, 0], [[1, 0], [0, 3]], 2⟩ := by
  have hu : uniqueSorted [(1 : ℚ), 0] = [0, 1] := by
    norm_num [uniqueSorted, List.dedup_cons_of_not_mem, List.insertionSort,
      List.orderedInsert]
  have hf : firstEncounterLabels [(1 : ℚ), 0] = [1, 0] := by
    norm_num [firstEncounterLabels, List.foldl]
  have hc : _get_batch_mask_cell_measurement ⟨[1, 0], [[1, 0], [0, 3]], 2⟩ =
      [[false, true], [true, false]] := by
    norm_num [_get_batch_mask_cell_measurement, hu, batchMaskFor, maskOf, filterMask,
      colSum, List.range, List.range.loop]
  have hs : specBatchMasks ⟨[1, 0], [[1, 0], [0, 3]], 2⟩ =
      [[true, false], [false, true]] := by
    norm_num [specBatchMasks, hf, batchMaskFor, maskOf, filterMask,
      colSum, List.range, List.range.loop]
  refine ⟨hc, hs, ?_⟩
  rw [hc, hs]
  simp

/-- **C9 (amended).** `_get_batch_mask_cell_measurement` returns exactly one
mask per distinct batch label, but ordered by **ascending label value**
(`np.unique` order), not by first encounter: the iterated label list is
duplicate-free, sorted, and contains precisely the labels present in the
assignment. -/
theorem C9_amended_sorted_label_order (self : MeasurementData) :
    _get_batch_mask_cell_measurement self =
        (uniqueSorted self.batch_indices).map (batchMaskFor self) ∧
      (uniqueSorted self.batch_indices).Nodup ∧
      (uniqueSorted self.batch_indices).Sorted (· ≤ ·) ∧
      (∀ b : ℚ, b ∈ uniqueSorted self.batch_indices ↔ b ∈ self.batch_indices) ∧
      (_get_batch_mask_cell_measurement self).length =
        (uniqueSorted self.batch_indices).length := by
  refine ⟨rfl, ?_, ?_, ?_, ?_⟩
  · exact ((List.perm_insertionSort _ _).nodup_iff).mpr (List.nodup_dedup _)
  · exact List.sorted_insertionSort _ _
  · intro b
    unfold uniqueSorted
    rw [List.mem_insertionSort, List.mem_dedup]
  · exact (List.length_map _ _).symm ▸ rfl

/-! ## Infrastructure for `_compute_library_size_batch` -/

theorem selectData_none (adata : AnnData) (mask : List Bool) :
    selectData adata none mask = .ok (filterMask mask adata.X) := rfl

theorem selectData_some (adata : AnnData) (k : String) (L : List (List ℚ))
    (hk : alookup adata.layers k = some L) (mask : List Bool) :
    selectData adata (some k) mask = .ok (filterMask mask L) := by
  simp only [selectData]
  rw [hk]

theorem selectData_some_err (adata : AnnData) (k : String)
    (hk : alookup adata.layers k = none) (mask : List Bool) :
    selectData adata (some k) mask = .error .layerKeyMissing := by
  simp only [selectData]
  rw [hk]

theorem batchLoop_nil (log : ℚ → ℚ) (adata : AnnData) (bcol : List ℚ)
    (lk : Option String) (acc : List ℚ × List ℚ) :
    batchLoop log adata bcol lk [] acc = .ok acc := rfl

theorem batchLoop_cons_of_ok (log : ℚ → ℚ) (adata : AnnData) (bcol : List ℚ)
    (lk : Option String) (data : List (List ℚ)) (lab : ℚ) (rest : List ℚ)
    (means vars : List ℚ)
    (hsel : selectData adata lk (maskOf bcol lab) = .ok data) :
    batchLoop log adata bcol lk (lab :: rest) (means, vars) =
      batchLoop log adata bcol lk rest
        (maskedSet (_compute_library_size log data).mean (maskOf bcol lab) means,
         maskedSet (_compute_library_size log data).var (maskOf bcol lab) vars) := by
  conv_lhs => rw [batchLoop]
  rw [hsel]

theorem batchLoop_cons_of_err (log : ℚ → ℚ) (adata : AnnData) (bcol : List ℚ)
    (lk : Option String) (e : ConfigError) (lab : ℚ) (rest : List ℚ)
    (means vars : List ℚ)
    (hsel : selectData adata lk (maskOf bcol lab) = .error e) :
    batchLoop log adata bcol lk (lab :: rest) (means, vars) = .error e := by
  conv_lhs => rw [batchLoop]
  rw [hsel]

/-- With a valid (or absent) layer key the batch loop always succeeds. -/
theorem batchLoop_ok_of_valid (log : ℚ → ℚ) (adata : AnnData) (bcol : List ℚ)
    (lk : Option String) (hlk : badLayerKey adata lk = false) :
    ∀ (labs : List ℚ) (acc : List ℚ × List ℚ),
      ∃ mv, batchLoop log adata bcol lk labs acc = .ok mv := by
  intro labs
  induction labs with
  | nil => exact fun acc => ⟨acc, rfl⟩
  | cons lab rest ih =>
    intro acc
    obtain ⟨means, vars⟩ := acc
    cases lk with
    | none =>
      rw [batchLoop_cons_of_ok log adata bcol none _ lab rest means vars
        (selectData_none adata _)]
      exact ih _
    | some k =>
      simp only [badLayerKey] at hlk
      cases hk : alookup adata.layers k with
      | none =>
        rw [hk] at hlk
        exact absurd hlk (by simp)
      | some L =>
        rw [batchLoop_cons_of_ok log adata bcol (some k) _ lab rest means vars
          (selectData_some adata k L hk _)]
        exact ih _

theorem uniqueSorted_eq_nil_iff (l : List ℚ) : uniqueSorted l = [] ↔ l = [] := by
  constructor
  · intro h
    rw [List.eq_nil_iff_forall_not_mem]
    intro x hx
    have hmem : x ∈ uniqueSorted l := by
      rw [uniqueSorted, List.mem_insertionSort, List.mem_dedup]
      exact hx
    rw [h] at hmem
    cases hmem
  · rintro rfl
    rfl

/-- Reduction of `_compute_library_size_batch` once the batch column has been
found. -/
theorem compute_batch_eq_of_found (log : ℚ → ℚ) (adata : AnnData) (bk : String)
    (mk vk lk : Option String) (copy : Bool) (bcol : List ℚ)
    (h : alookup adata.obs bk = some bcol) :
    _compute_library_size_batch log adata bk mk vk lk copy =
      match batchLoop log adata bcol lk (uniqueSorted bcol)
          (List.replicate adata.X.length 0, List.replicate adata.X.length 0) with
      | .error e => .err e adata
      | .ok (means, vars) =>
        mkFinal adata (mk.getD "_scvi_local_l_mean") (vk.getD "_scvi_local_l_var")
          means vars copy := by
  unfold _compute_library_size_batch
  rw [h]

theorem compute_batch_eq_of_missing (log : ℚ → ℚ) (adata : AnnData) (bk : String)
    (mk vk lk : Option String) (copy : Bool)
    (h : alookup adata.obs bk = none) :
    _compute_library_size_batch log adata bk mk vk lk copy =
      .err .batchKeyMissing adata := by
  unfold _compute_library_size_batch
  rw [h]

/-- Unfolding `alookup` over a cons cell. -/
theorem alookup_cons (p : String × List ℚ) (t : List (String × List ℚ))
    (k : String) :
    alookup (p :: t) k = if p.1 == k then some p.2 else alookup t k := by
  unfold alookup
  by_cases hp : (p.1 == k) = true
  · rw [List.find?_cons_of_pos (p := fun q => q.1 == k) t hp, if_pos hp]
    rfl
  · rw [List.find?_cons_of_neg (p := fun q => q.1 == k) t hp, if_neg hp]

/-- Replacing the `k`-entries of an association list leaves every other
lookup unchanged. -/
theorem alookup_map_replace_ne (l : List (String × List ℚ)) (k k' : String)
    (v : List ℚ) (hne : k' ≠ k) :
    alookup (l.map (fun p => if p.1 == k then (k, v) else p)) k' =
      alookup l k' := by
  have hc : ¬ ((k == k') = true) := by
    simp only [beq_iff_eq]
    exact fun h => hne h.symm
  induction l with
  | nil => rfl
  | cons p t ih =>
    rw [List.map_cons]
    by_cases hp : (p.1 == k) = true
    · have hp1 : p.1 = k := by simpa using hp
      rw [if_pos hp, alookup_cons, alookup_cons,
        if_neg (by simpa using hc), if_neg (by rw [hp1]; exact hc)]
      exact ih
    · rw [if_neg hp, alookup_cons, alookup_cons]
      by_cases hq : (p.1 == k') = true
      · rw [if_pos hq, if_pos hq]
      · rw [if_neg hq, if_neg hq]
        exact ih

/-- Looking up the key just written by `ainsert` returns the written value. -/
theorem alookup_ainsert (l : List (String × List ℚ)) (k : String) (v : List ℚ) :
    alookup (ainsert l k v) k = some v := by
  unfold ainsert
  by_cases hany : (l.any fun p => p.1 == k) = true
  · rw [if_pos hany]
    induction l with
    | nil => cases hany
    | cons p t ih =>
      rw [List.map_cons]
      by_cases hp : (p.1 == k) = true
      · rw [if_pos hp, alookup_cons]
        simp
      · rw [if_neg hp, alookup_cons, if_neg hp]
        apply ih
        simp only [List.any_cons, Bool.or_eq_true] at hany
        rcases hany with h | h
        · exact absurd h hp
        · exact h
  · rw [if_neg hany]
    induction l with
    | nil =>
      rw [List.nil_append, alookup_cons]
      simp
    | cons p t ih =>
      rw [List.cons_append, alookup_cons]
      simp only [List.any_cons, Bool.or_eq_true, not_or] at hany
      rw [if_neg hany.1]
      exact ih (by simpa using hany.2)

/-- `ainsert` does not change the value looked up at any other key. -/
theorem alookup_ainsert_ne (l : List (String × List ℚ)) (k k' : String)
    (v : List ℚ) (hne : k' ≠ k) :
    alookup (ainsert l k v) k' = alookup l k' := by
  have hc : ¬ ((k == k') = true) := by
    simp only [beq_iff_eq]
    exact fun h => hne h.symm
  unfold ainsert
  by_cases hany : (l.any fun p => p.1 == k) = true
  · rw [if_pos hany]
    exact alookup_map_replace_ne l k k' v hne
  · rw [if_neg hany]
    induction l with
    | nil =>
      rw [List.nil_append, alookup_cons, if_neg (by simpa using hc)]
    | cons p t ih =>
      rw [List.cons_append, alookup_cons, alookup_cons]
      by_cases hq : (p.1 == k') = true
      · rw [if_pos hq, if_pos hq]
      · rw [if_neg hq, if_neg hq]
        exact ih (by
          simp only [List.any_cons, Bool.or_eq_true, not_or] at hany
          simpa using hany.2)

theorem isErr_mkFinal (adata : AnnData) (mkey vkey : String)
    (means vars : List ℚ) (copy : Bool) :
    (mkFinal adata mkey vkey means vars copy).isErr = false := by
  cases copy <;> rfl

theorem batch_result_of_ok (log : ℚ → ℚ) (adata : AnnData) (bk : String)
    (mk vk lk : Option String) (copy : Bool) (bcol means vars : List ℚ)
    (h : alookup adata.obs bk = some bcol)
    (hloop : batchLoop log adata bcol lk (uniqueSorted bcol)
        (List.replicate adata.X.length 0, List.replicate adata.X.length 0) =
      .ok (means, vars)) :
    _compute_library_size_batch log adata bk mk vk lk copy =
      mkFinal adata (mk.getD "_scvi_local_l_mean") (vk.getD "_scvi_local_l_var")
        means vars copy := by
  rw [compute_batch_eq_of_found log adata bk mk vk lk copy bcol h, hloop]

theorem batch_result_of_loop_err (log : ℚ → ℚ) (adata : AnnData) (bk : String)
    (mk vk lk : Option String) (copy : Bool) (bcol : List ℚ) (e : ConfigError)
    (h : alookup adata.obs bk = some bcol)
    (hloop : batchLoop log adata bcol lk (uniqueSorted bcol)
        (List.replicate adata.X.length 0, List.replicate adata.X.length 0) =
      .error e) :
    _compute_library_size_batch log adata bk mk vk lk copy = .err e adata := by
  rw [compute_batch_eq_of_found log adata bk mk vk lk copy bcol h, hloop]

/-- **C3 counterexample.** On a zero-row dataset whose `obs` does contain the
batch key `"b"` but whose layers do **not** contain the requested layer key
`"L"`, `_compute_library_size_batch` does not raise: the layer-key assertion
sits inside the per-batch loop, which runs zero times.  This falsifies the
"raises … when an alternate layer key is given and is absent" half of the
claim in the zero-row edge case. -/
theorem C3_counterexample :
    alookup (AnnData.mk [] [] [("b", [])]).layers "L" = none ∧
      alookup (AnnData.mk [] [] [("b", [])]).obs "b" = some [] ∧
      (_compute_library_size_batch (fun q => q) (AnnData.mk [] [] [("b", [])])
          "b" none none (some "L") false).isErr = false := by
  refine ⟨rfl, ?_, ?_⟩
  · rw [alookup_cons]
    simp
  · rw [batch_result_of_ok (fun q => q) (AnnData.mk [] [] [("b", [])]) "b"
      none none (some "L") false [] [] [] (by rw [alookup_cons]; simp)
      (batchLoop_nil _ _ _ _ _), isErr_mkFinal]

/-- **C3 (amended).** `_compute_library_size_batch` fails exactly when the
batch key is absent from `obs`, or when an alternate layer key is given,
absent from the registered layers, **and the batch loop runs at least once**
(the batch column is non-empty); and on every failure path the dataset
reaches the caller unchanged — no partial mutation. -/
theorem C3_error_characterization (log : ℚ → ℚ) (adata : AnnData) (bk : String)
    (mk vk lk : Option String) (copy : Bool) :
    ((_compute_library_size_batch log adata bk mk vk lk copy).isErr = true ↔
      (alookup adata.obs bk = none ∨
        ((alookup adata.obs bk).getD [] ≠ [] ∧ badLayerKey adata lk = true))) ∧
    ((_compute_library_size_batch log adata bk mk vk lk copy).isErr = true →
      (_compute_library_size_batch log adata bk mk vk lk copy).stateOf = adata) := by
  cases hbk : alookup adata.obs bk with
  | none =>
    rw [compute_batch_eq_of_missing log adata bk mk vk lk copy hbk]
    exact ⟨iff_of_true rfl (Or.inl rfl), fun _ => rfl⟩
  | some bcol =>
    by_cases hb : badLayerKey adata lk = true
    · rcases eq_or_ne bcol [] with rfl | hbne
      · rw [batch_result_of_ok log adata bk mk vk lk copy [] _ _ hbk
          (batchLoop_nil _ _ _ _ _)]
        refine ⟨?_, ?_⟩
        · rw [isErr_mkFinal]
          constructor
          · intro h; cases h
          · rintro (h | ⟨h1, _⟩)
            · cases h
            · exact absurd rfl h1
        · intro h
          rw [isErr_mkFinal] at h
          cases h
      · obtain ⟨lab, rest, hcons⟩ : ∃ lab rest, uniqueSorted bcol = lab :: rest := by
          cases hu : uniqueSorted bcol with
          | nil => exact absurd ((uniqueSorted_eq_nil_iff bcol).mp hu) hbne
          | cons a t => exact ⟨a, t, rfl⟩
        cases lk with
        | none => simp [badLayerKey] at hb
        | some k =>
          have hk : alookup adata.layers k = none := by
            simpa [badLayerKey, Option.isNone_iff_eq_none] using hb
          have hloop : batchLoop log adata bcol (some k) (uniqueSorted bcol)
              (List.replicate adata.X.length 0, List.replicate adata.X.length 0) =
              .error .layerKeyMissing := by
            rw [hcons]
            exact batchLoop_cons_of_err log adata bcol (some k) _ lab rest _ _
              (selectData_some_err adata k hk _)
          rw [batch_result_of_loop_err log adata bk mk vk (some k) copy bcol _ hbk hloop]
          exact ⟨iff_of_true rfl (Or.inr ⟨by simpa using hbne, hb⟩), fun _ => rfl⟩
    · obtain ⟨⟨means, vars⟩, hloop⟩ := batchLoop_ok_of_valid log adata bcol lk
        (by simpa using hb) (uniqueSorted bcol)
        (List.replicate adata.X.length 0, List.replicate adata.X.length 0)
      rw [batch_result_of_ok log adata bk mk vk lk copy bcol _ _ hbk hloop]
      refine ⟨?_, ?_⟩
      · rw [isErr_mkFinal]
        constructor
        · intro h; cases h
        · rintro (h | ⟨_, h2⟩)
          · cases h
          · exact absurd h2 hb
      · intro h
        rw [isErr_mkFinal] at h
        cases h

/-- Witness for C3 at a concrete dataset missing the batch key: the call
fails and the dataset is returned unchanged. -/
theorem C3_witness :
    (_compute_library_size_batch (fun q => q) (AnnData.mk [[1]] [] []) "b"
        none none none false).stateOf = AnnData.mk [[1]] [] [] :=
  (C3_error_characterization (fun q => q) (AnnData.mk [[1]] [] []) "b"
      none none none false).2
    (by
      rw [compute_batch_eq_of_missing (fun q => q) (AnnData.mk [[1]] [] []) "b"
        none none none false rfl]
      rfl)

theorem dedup_replicate_succ (n : ℕ) (lab : ℚ) :
    (List.replicate (n + 1) lab).dedup = [lab] := by
  induction n with
  | zero => simp
  | succ m ih =>
    rw [List.replicate_succ, List.dedup_cons_of_mem (by
      exact List.mem_replicate.mpr ⟨Nat.succ_ne_zero m, rfl⟩)]
    exact ih

theorem uniqueSorted_replicate_succ (n : ℕ) (lab : ℚ) :
    uniqueSorted (List.replicate (n + 1) lab) = [lab] := by
  rw [uniqueSorted, dedup_replicate_succ]
  rfl

theorem maskOf_replicate_self (n : ℕ) (lab : ℚ) :
    maskOf (List.replicate n lab) lab = List.replicate n true := by
  simp [maskOf, List.map_replicate]

theorem filterMask_replicate_true : ∀ (l : List α),
    filterMask (List.replicate l.length true) l = l
  | [] => rfl
  | x :: xs => by
    rw [List.length_cons, List.replicate_succ]
    show x :: filterMask (List.replicate xs.length true) xs = x :: xs
    rw [filterMask_replicate_true xs]

theorem maskedSet_replicate_true (v : ℚ) : ∀ (xs : List ℚ),
    maskedSet v (List.replicate xs.length true) xs = List.replicate xs.length v
  | [] => rfl
  | x :: xs => by
    rw [List.length_cons, List.replicate_succ, List.replicate_succ]
    show v :: maskedSet v (List.replicate xs.length true) xs =
      v :: List.replicate xs.length v
    rw [maskedSet_replicate_true v xs]

theorem maskedSet_replicate_true_zeros (v : ℚ) (n : ℕ) :
    maskedSet v (List.replicate n true) (List.replicate n (0 : ℚ)) =
      List.replicate n v := by
  induction n with
  | zero => rfl
  | succ m ih =>
    rw [List.replicate_succ, List.replicate_succ, List.replicate_succ]
    show v :: maskedSet v (List.replicate m true) (List.replicate m 0) =
      v :: List.replicate m v
    rw [ih]

/-- **C5.** When a single batch label covers all rows (the batch column is
constant over the dataset's rows, and there is at least one row), the two
columns written by `_compute_library_size_batch` are the direct
`_compute_library_size` of the whole primary matrix, broadcast to every
row. -/
theorem C5_single_batch_eq_direct (log : ℚ → ℚ) (adata : AnnData) (bk : String)
    (lab : ℚ) (hrows : adata.X.length ≠ 0)
    (h : alookup adata.obs bk = some (List.replicate adata.X.length lab)) :
    alookup (_compute_library_size_batch log adata bk none none none
          false).stateOf.obs "_scvi_local_l_mean" =
      some (List.replicate adata.X.length (_compute_library_size log adata.X).mean) ∧
    alookup (_compute_library_size_batch log adata bk none none none
          false).stateOf.obs "_scvi_local_l_var" =
      some (List.replicate adata.X.length (_compute_library_size log adata.X).var) := by
  obtain ⟨n, hn⟩ : ∃ n, adata.X.length = n + 1 :=
    ⟨adata.X.length - 1, (Nat.succ_pred_eq_of_pos (Nat.pos_of_ne_zero hrows)).symm⟩
  have hu : uniqueSorted (List.replicate adata.X.length lab) = [lab] := by
    rw [hn]
    exact uniqueSorted_replicate_succ n lab
  have hdata : filterMask (maskOf (List.replicate adata.X.length lab) lab) adata.X =
      adata.X := by
    rw [maskOf_replicate_self]
    exact filterMask_replicate_true adata.X
  have hms : ∀ v : ℚ, maskedSet v (maskOf (List.replicate adata.X.length lab) lab)
      (List.replicate adata.X.length 0) = List.replicate adata.X.length v := by
    intro v
    rw [maskOf_replicate_self]
    exact maskedSet_replicate_true_zeros v adata.X.length
  have hloop : batchLoop log adata (List.replicate adata.X.length lab) none
      (uniqueSorted (List.replicate adata.X.length lab))
      (List.replicate adata.X.length 0, List.replicate adata.X.length 0) =
      .ok (List.replicate adata.X.length (_compute_library_size log adata.X).mean,
        List.replicate adata.X.length (_compute_library_size log adata.X).var) := by
    rw [hu, batchLoop_cons_of_ok log adata _ none _ lab [] _ _
      (selectData_none adata _), hdata, hms, hms, batchLoop_nil]
  rw [batch_result_of_ok log adata bk none none none false _ _ _ h hloop]
  have hmv : ("_scvi_local_l_mean" : String) ≠ "_scvi_local_l_var" := by decide
  constructor
  · show alookup (ainsert (ainsert adata.obs "_scvi_local_l_mean"
        (List.replicate adata.X.length (_compute_library_size log adata.X).mean))
        "_scvi_local_l_var"
        (List.replicate adata.X.length (_compute_library_size log adata.X).var))
      "_scvi_local_l_mean" = _
    rw [alookup_ainsert_ne _ _ _ _ hmv, alookup_ainsert]
  · show alookup (ainsert (ainsert adata.obs "_scvi_local_l_mean"
        (List.replicate adata.X.length (_compute_library_size log adata.X).mean))
        "_scvi_local_l_var"
        (List.replicate adata.X.length (_compute_library_size log adata.X).var))
      "_scvi_local_l_var" = _
    rw [alookup_ainsert]

/-- Witness for C5 at a concrete two-row dataset whose batch column is
constant. -/
theorem C5_witness :
    alookup (_compute_library_size_batch (fun q => q)
          (AnnData.mk [[2], [4]] [] [("b", [7, 7])]) "b" none none none
          false).stateOf.obs "_scvi_local_l_mean" =
      some (List.replicate 2 (_compute_library_size (fun q => q) [[2], [4]]).mean) :=
  (C5_single_batch_eq_direct (fun q => q) (AnnData.mk [[2], [4]] [] [("b", [7, 7])])
      "b" 7 (by decide) rfl).1

theorem maskedSet_length (v : ℚ) : ∀ (mask : List Bool) (xs : List ℚ),
    (maskedSet v mask xs).length = xs.length
  | [], _ => rfl
  | _ :: _, [] => by
    rename_i m _
    cases m <;> rfl
  | true :: ms, x :: xs => by
    show (v :: maskedSet v ms xs).length = (x :: xs).length
    rw [List.length_cons, List.length_cons, maskedSet_length v ms xs]
  | false :: ms, x :: xs => by
    show (x :: maskedSet v ms xs).length = (x :: xs).length
    rw [List.length_cons, List.length_cons, maskedSet_length v ms xs]

/-- Access into a masked assignment: positions where the mask is `true` (and
in range) read the written value, every other position reads the original. -/
theorem maskedSet_getElem? (v : ℚ) : ∀ (mask : List Bool) (xs : List ℚ) (i : ℕ),
    (maskedSet v mask xs)[i]? =
      if mask[i]? = some true ∧ i < xs.length then some v else xs[i]?
  | [], xs, i => by
    rw [show maskedSet v [] xs = xs from rfl]
    simp
  | true :: ms, [], i => by
    rw [show maskedSet v (true :: ms) [] = [] from rfl]
    simp
  | false :: ms, [], i => by
    rw [show maskedSet v (false :: ms) [] = [] from rfl]
    simp
  | true :: ms, x :: xs, 0 => by
    rw [show maskedSet v (true :: ms) (x :: xs) = v :: maskedSet v ms xs from rfl]
    simp
  | false :: ms, x :: xs, 0 => by
    rw [show maskedSet v (false :: ms) (x :: xs) = x :: maskedSet v ms xs from rfl]
    simp
  | true :: ms, x :: xs, i + 1 => by
    rw [show maskedSet v (true :: ms) (x :: xs) = v :: maskedSet v ms xs from rfl,
      List.getElem?_cons_succ, maskedSet_getElem? v ms xs i]
    simp [Nat.succ_lt_succ_iff]
  | false :: ms, x :: xs, i + 1 => by
    rw [show maskedSet v (false :: ms) (x :: xs) = x :: maskedSet v ms xs from rfl,
      List.getElem?_cons_succ, maskedSet_getElem? v ms xs i]
    simp [Nat.succ_lt_succ_iff]

theorem maskOf_getElem?_of_eq (bcol : List ℚ) (lab b : ℚ) (i : ℕ)
    (hi : bcol[i]? = some b) :
    (maskOf bcol lab)[i]? = some (decide (b = lab)) := by
  unfold maskOf
  rw [List.getElem?_map, hi]
  rfl

/-- Two equal-length matrices that agree on the rows a mask selects filter to
the same row list. -/
theorem filterMask_congr : ∀ (mask : List Bool) (l1 l2 : List (List ℚ)),
    l1.length = l2.length →
    (∀ i : ℕ, mask[i]? = some true → l1[i]? = l2[i]?) →
    filterMask mask l1 = filterMask mask l2
  | [], l1, l2, _, _ => rfl
  | m :: ms, [], [], _, _ => by cases m <;> rfl
  | _ :: _, [], _ :: _, hlen, _ => by simp at hlen
  | _ :: _, _ :: _, [], hlen, _ => by simp at hlen
  | true :: ms, a :: t1, b :: t2, hlen, h => by
    have hab : a = b := by simpa using h 0 (by simp)
    show a :: filterMask ms t1 = b :: filterMask ms t2
    rw [hab, filterMask_congr ms t1 t2 (by simpa using hlen)
      (fun i hi => by simpa using h (i + 1) (by simpa using hi))]
  | false :: ms, a :: t1, b :: t2, hlen, h => by
    show filterMask ms t1 = filterMask ms t2
    exact filterMask_congr ms t1 t2 (by simpa using hlen)
      (fun i hi => by simpa using h (i + 1) (by simpa using hi))

/-- Loop-level noninterference: two runs over the same batch column whose
matrices agree on the rows labelled `b` produce, at every row labelled `b`,
identical mean/variance entries. -/
theorem batchLoop_agree (log : ℚ → ℚ) (a1 a2 : AnnData) (bcol : List ℚ) (b : ℚ)
    (hlen : a1.X.length = a2.X.length)
    (hX : ∀ i : ℕ, bcol[i]? = some b → a1.X[i]? = a2.X[i]?) :
    ∀ (labs : List ℚ) (m1 v1 m2 v2 : List ℚ),
      m1.length = m2.length → v1.length = v2.length →
      (∀ i : ℕ, bcol[i]? = some b → m1[i]? = m2[i]?) →
      (∀ i : ℕ, bcol[i]? = some b → v1[i]? = v2[i]?) →
      ∃ r1 r2 : List ℚ × List ℚ,
        batchLoop log a1 bcol none labs (m1, v1) = .ok r1 ∧
        batchLoop log a2 bcol none labs (m2, v2) = .ok r2 ∧
        (∀ i : ℕ, bcol[i]? = some b → r1.1[i]? = r2.1[i]?) ∧
        (∀ i : ℕ, bcol[i]? = some b → r1.2[i]? = r2.2[i]?) := by
  intro labs
  induction labs with
  | nil =>
    intro m1 v1 m2 v2 _ _ him hiv
    exact ⟨(m1, v1), (m2, v2), rfl, rfl, him, hiv⟩
  | cons lab rest ih =>
    intro m1 v1 m2 v2 hm hv him hiv
    rw [batchLoop_cons_of_ok log a1 bcol none _ lab rest m1 v1 (selectData_none a1 _),
        batchLoop_cons_of_ok log a2 bcol none _ lab rest m2 v2 (selectData_none a2 _)]
    by_cases hlab : lab = b
    · subst hlab
      have hdata : filterMask (maskOf bcol lab) a1.X =
          filterMask (maskOf bcol lab) a2.X := by
        apply filterMask_congr (maskOf bcol lab) a1.X a2.X hlen
        intro i hi
        apply hX i
        unfold maskOf at hi
        rw [List.getElem?_map] at hi
        cases hc : bcol[i]? with
        | none => rw [hc] at hi; cases hi
        | some x =>
          rw [hc] at hi
          simp only [Option.map_some', Option.some_inj, decide_eq_true_eq] at hi
          rw [hi]
      rw [hdata]
      apply ih
      · rw [maskedSet_length, maskedSet_length, hm]
      · rw [maskedSet_length, maskedSet_length, hv]
      · intro i hi
        have hmi : (maskOf bcol lab)[i]? = some true := by
          rw [maskOf_getElem?_of_eq bcol lab lab i hi]
          simp
        rw [maskedSet_getElem?, maskedSet_getElem?, hmi]
        by_cases hil : i < m2.length
        · rw [if_pos ⟨rfl, hm ▸ hil⟩, if_pos ⟨rfl, hil⟩]
        · rw [if_neg (fun hcon => hil (hm ▸ hcon.2)), if_neg (fun hcon => hil hcon.2)]
          exact him i hi
      · intro i hi
        have hmi : (maskOf bcol lab)[i]? = some true := by
          rw [maskOf_getElem?_of_eq bcol lab lab i hi]
          simp
        rw [maskedSet_getElem?, maskedSet_getElem?, hmi]
        by_cases hil : i < v2.length
        · rw [if_pos ⟨rfl, hv ▸ hil⟩, if_pos ⟨rfl, hil⟩]
        · rw [if_neg (fun hcon => hil (hv ▸ hcon.2)), if_neg (fun hcon => hil hcon.2)]
          exact hiv i hi
    · apply ih
      · rw [maskedSet_length, maskedSet_length, hm]
      · rw [maskedSet_length, maskedSet_length, hv]
      · intro i hi
        have hmi : (maskOf bcol lab)[i]? = some false := by
          rw [maskOf_getElem?_of_eq bcol lab b i hi]
          simp
          exact fun hc => hlab hc.symm
        rw [maskedSet_getElem?, maskedSet_getElem?,
          if_neg (fun hcon => by rw [hmi] at hcon; exact absurd hcon.1 (by simp)),
          if_neg (fun hcon => by rw [hmi] at hcon; exact absurd hcon.1 (by simp))]
        exact him i hi
      · intro i hi
        have hmi : (maskOf bcol lab)[i]? = some false := by
          rw [maskOf_getElem?_of_eq bcol lab b i hi]
          simp
          exact fun hc => hlab hc.symm
        rw [maskedSet_getElem?, maskedSet_getElem?,
          if_neg (fun hcon => by rw [hmi] at hcon; exact absurd hcon.1 (by simp)),
          if_neg (fun hcon => by rw [hmi] at hcon; exact absurd hcon.1 (by simp))]
        exact hiv i hi

/-- **C6.** Noninterference between batches: for a dataset whose batch column
(shared by both runs) uses two distinct labels `la` and `lb`, two runs of
`_compute_library_size_batch` whose primary matrices agree on every row
labelled `lb` (i.e. differ only in batch `la`'s row data) write identical
mean and variance entries at every row labelled `lb`. -/
theorem C6_two_batch_noninterference (log : ℚ → ℚ) (a1 a2 : AnnData)
    (bk : String) (bcol : List ℚ) (la lb : ℚ)
    (h1 : alookup a1.obs bk = some bcol) (h2 : alookup a2.obs bk = some bcol)
    (_hab : la ≠ lb) (_hcov : ∀ x ∈ bcol, x = la ∨ x = lb)
    (hlen : a1.X.length = a2.X.length)
    (hagree : ∀ i : ℕ, bcol[i]? = some lb → a1.X[i]? = a2.X[i]?) :
    ∀ i : ℕ, bcol[i]? = some lb →
      ((alookup (_compute_library_size_batch log a1 bk none none none
            false).stateOf.obs "_scvi_local_l_mean").getD [])[i]? =
        ((alookup (_compute_library_size_batch log a2 bk none none none
            false).stateOf.obs "_scvi_local_l_mean").getD [])[i]? ∧
      ((alookup (_compute_library_size_batch log a1 bk none none none
            false).stateOf.obs "_scvi_local_l_var").getD [])[i]? =
        ((alookup (_compute_library_size_batch log a2 bk none none none
            false).stateOf.obs "_scvi_local_l_var").getD [])[i]? := by
  obtain ⟨⟨mm1, vv1⟩, ⟨mm2, vv2⟩, hl1, hl2, himm, hivv⟩ :=
    batchLoop_agree log a1 a2 bcol lb hlen hagree (uniqueSorted bcol)
      (List.replicate a1.X.length 0) (List.replicate a1.X.length 0)
      (List.replicate a2.X.length 0) (List.replicate a2.X.length 0)
      (by rw [List.length_replicate, List.length_replicate, hlen])
      (by rw [List.length_replicate, List.length_replicate, hlen])
      (fun i _ => by rw [hlen]) (fun i _ => by rw [hlen])
  rw [batch_result_of_ok log a1 bk none none none false bcol mm1 vv1 h1 hl1,
      batch_result_of_ok log a2 bk none none none false bcol mm2 vv2 h2 hl2]
  intro i hi
  have hmv : ("_scvi_local_l_mean" : String) ≠ "_scvi_local_l_var" := by decide
  constructor
  · show ((alookup (ainsert (ainsert a1.obs "_scvi_local_l_mean" mm1)
        "_scvi_local_l_var" vv1) "_scvi_local_l_mean").getD [])[i]? =
      ((alookup (ainsert (ainsert a2.obs "_scvi_local_l_mean" mm2)
        "_scvi_local_l_var" vv2) "_scvi_local_l_mean").getD [])[i]?
    rw [alookup_ainsert_ne _ _ _ _ hmv, alookup_ainsert,
      alookup_ainsert_ne _ _ _ _ hmv, alookup_ainsert]
    exact himm i hi
  · show ((alookup (ainsert (ainsert a1.obs "_scvi_local_l_mean" mm1)
        "_scvi_local_l_var" vv1) "_scvi_local_l_var").getD [])[i]? =
      ((alookup (ainsert (ainsert a2.obs "_scvi_local_l_mean" mm2)
        "_scvi_local_l_var" vv2) "_scvi_local_l_var").getD [])[i]?
    rw [alookup_ainsert, alookup_ainsert]
    exact hivv i hi

/-- Witness for C6: batches `0` and `1` over two-row datasets that differ
only in batch 0's row; the entry written for batch 1's row (index 1)
coincides across the two runs. -/
theorem C6_witness :
    ((alookup (_compute_library_size_batch (fun q => q)
        (AnnData.mk [[1], [2]] [] [("b", [0, 1])]) "b" none none none
        false).stateOf.obs "_scvi_local_l_mean").getD [])[1]? =
      ((alookup (_compute_library_size_batch (fun q => q)
        (AnnData.mk [[5], [2]] [] [("b", [0, 1])]) "b" none none none
        false).stateOf.obs "_scvi_local_l_mean").getD [])[1]? ∧
    ((alookup (_compute_library_size_batch (fun q => q)
        (AnnData.mk [[1], [2]] [] [("b", [0, 1])]) "b" none none none
        false).stateOf.obs "_scvi_local_l_var").getD [])[1]? =
      ((alookup (_compute_library_size_batch (fun q => q)
        (AnnData.mk [[5], [2]] [] [("b", [0, 1])]) "b" none none none
        false).stateOf.obs "_scvi_local_l_var").getD [])[1]? :=
  C6_two_batch_noninterference (fun q => q)
    (AnnData.mk [[1], [2]] [] [("b", [0, 1])])
    (AnnData.mk [[5], [2]] [] [("b", [0, 1])]) "b" [0, 1] 0 1 rfl rfl
    (by norm_num)
    (by
      intro x hx
      rcases List.mem_cons.mp hx with h | h
      · exact Or.inl h
      · exact Or.inr (by simpa using h))
    rfl
    (fun i hi => by
      match i with
      | 0 => norm_num at hi
      | 1 => rfl
      | i + 2 => exact absurd hi (by simp))
    1 rfl

/-- **C7.** On a valid input (batch key present, layer key valid or absent):
with `copy=True` the call returns the input state unchanged **and** a
returned dataset carrying the two output columns (all other columns
untouched); with `copy=False` it returns no object and the input state now
carries the two columns (all other columns untouched). -/
theorem C7_copy_semantics (log : ℚ → ℚ) (adata : AnnData) (bk : String)
    (mk vk lk : Option String) (bcol : List ℚ)
    (hbk : alookup adata.obs bk = some bcol)
    (hlk : badLayerKey adata lk = false) :
    (∃ ret, _compute_library_size_batch log adata bk mk vk lk true =
        .ok adata (some ret) ∧
        WritesCols adata ret (mk.getD "_scvi_local_l_mean")
          (vk.getD "_scvi_local_l_var")) ∧
    (∃ st, _compute_library_size_batch log adata bk mk vk lk false =
        .ok st none ∧
        WritesCols adata st (mk.getD "_scvi_local_l_mean")
          (vk.getD "_scvi_local_l_var")) := by
  obtain ⟨⟨means, vars⟩, hloop⟩ := batchLoop_ok_of_valid log adata bcol lk hlk
    (uniqueSorted bcol)
    (List.replicate adata.X.length 0, List.replicate adata.X.length 0)
  set mkey := mk.getD "_scvi_local_l_mean" with hmk
  set vkey := vk.getD "_scvi_local_l_var" with hvk
  set newObs : List (String × List ℚ) :=
    ainsert (ainsert adata.obs mkey means) vkey vars with hobs
  have hwc : WritesCols adata { adata with obs := newObs } mkey vkey := by
    refine ⟨rfl, rfl, ?_, ?_, ?_⟩
    · rw [show ({ adata with obs := newObs } : AnnData).obs = newObs from rfl, hobs]
      by_cases hmv : mkey = vkey
      · rw [hmv, alookup_ainsert]
        rfl
      · rw [alookup_ainsert_ne _ _ _ _ hmv, alookup_ainsert]
        rfl
    · rw [show ({ adata with obs := newObs } : AnnData).obs = newObs from rfl, hobs,
        alookup_ainsert]
      rfl
    · intro key hk1 hk2
      rw [show ({ adata with obs := newObs } : AnnData).obs = newObs from rfl, hobs,
        alookup_ainsert_ne _ _ _ _ hk2, alookup_ainsert_ne _ _ _ _ hk1]
  refine ⟨⟨_, ?_, hwc⟩, ⟨_, ?_, hwc⟩⟩
  · rw [batch_result_of_ok log adata bk mk vk lk true bcol means vars hbk hloop]
    rfl
  · rw [batch_result_of_ok log adata bk mk vk lk false bcol means vars hbk hloop]
    rfl

/-- Witness for C7 at a concrete one-row dataset with one batch. -/
theorem C7_witness :
    (∃ ret, _compute_library_size_batch (fun q => q)
        (AnnData.mk [[2]] [] [("b", [0])]) "b" none none none true =
        .ok (AnnData.mk [[2]] [] [("b", [0])]) (some ret) ∧
        WritesCols (AnnData.mk [[2]] [] [("b", [0])]) ret
          "_scvi_local_l_mean" "_scvi_local_l_var") ∧
    (∃ st, _compute_library_size_batch (fun q => q)
        (AnnData.mk [[2]] [] [("b", [0])]) "b" none none none false =
        .ok st none ∧
        WritesCols (AnnData.mk [[2]] [] [("b", [0])]) st
          "_scvi_local_l_mean" "_scvi_local_l_var") :=
  C7_copy_semantics (fun q => q) (AnnData.mk [[2]] [] [("b", [0])]) "b"
    none none none [0] rfl rfl
